import Mathlib

/-!
Verification of the Novapay payment-orchestration core against its
natural-language specification.  The definitions below are a shallow
embedding of the TypeScript services under `src/server/services/` (and the
exchange-optimization service): pure computations become Lean functions over
`ℚ`/`Nat`, the in-memory stores become explicit state values, and thrown
exceptions become `Except`.  JavaScript numbers are modelled as exact
rationals; `Math.round` is modelled as `⌊x + 1/2⌋` (its behaviour on the
values that occur here).
-/

namespace Novapay

/-! ## Double-spend safety gate (`ai-double-spend-detection.ts`) -/

/-- Alert severities, `DoubleSpendAlert.severity` in the source. -/
inductive Severity
  | low
  | medium
  | high
  | critical
deriving DecidableEq, Repr

/-- Alert categories, `DoubleSpendAlert.alertType` in the source. -/
inductive AlertType
  | mempool_conflict
  | chain_reorg
  | rbf_detected
  | suspicious_pattern
  | confirmed_double_spend
deriving DecidableEq, Repr

/-- One double-spend alert (`DoubleSpendAlert`). -/
structure DoubleSpendAlert where
  severity : Severity
  confidence : ℚ
  alertType : AlertType
  details : String
  recommendedAction : String
  relatedTransactions : List String
  estimatedRisk : ℚ
deriving DecidableEq, Repr

/-- Function `isSafeToAccept` (ai-double-spend-detection.ts, lines 355–378): critical
alerts always block; high-severity alerts block below 3 confirmations;
medium-severity alerts block below 1 confirmation; otherwise safe. -/
def isSafeToAccept (alerts : List DoubleSpendAlert) (confirmations : Nat) : Bool :=
  let criticalAlerts := alerts.filter (fun alert => decide (alert.severity = Severity.critical))
  if 0 < criticalAlerts.length then false
  else
    let highSeverityAlerts := alerts.filter (fun alert => decide (alert.severity = Severity.high))
    if 0 < highSeverityAlerts.length ∧ confirmations < 3 then false
    else
      let mediumSeverityAlerts := alerts.filter (fun alert => decide (alert.severity = Severity.medium))
      if 0 < mediumSeverityAlerts.length ∧ confirmations < 1 then false
      else true

/-! ## Risk gate scoring (`ai-fraud-detection.ts`) -/

/-- The five per-factor risk scores, `FraudRiskScore.riskFactors`. -/
structure RiskFactors where
  velocityRisk : ℚ
  amountRisk : ℚ
  locationRisk : ℚ
  behaviorRisk : ℚ
  reputationRisk : ℚ
deriving DecidableEq, Repr

/-- JavaScript `Math.round` on the (finite) numbers that occur here:
round half toward positive infinity. -/
def jsRound (x : ℚ) : ℤ := ⌊x + 1 / 2⌋

/-- Function `calculateOverallRisk` (ai-fraud-detection.ts, lines 250–266): the
rounded weighted sum of the five factors with weights
0.25 / 0.20 / 0.15 / 0.25 / 0.15. -/
def calculateOverallRisk (risks : RiskFactors) : ℤ :=
  jsRound
    (risks.velocityRisk * (25 / 100) +
      risks.amountRisk * (20 / 100) +
      risks.locationRisk * (15 / 100) +
      risks.behaviorRisk * (25 / 100) +
      risks.reputationRisk * (15 / 100))

/-- Risk level buckets (`determineRiskLevel`). -/
inductive RiskLevel
  | low
  | medium
  | high
  | critical
deriving DecidableEq, Repr

/-- Function `determineRiskLevel` (ai-fraud-detection.ts, lines 269–274). -/
def determineRiskLevel (overallRisk : ℤ) : RiskLevel :=
  if 80 ≤ overallRisk then RiskLevel.critical
  else if 60 ≤ overallRisk then RiskLevel.high
  else if 35 ≤ overallRisk then RiskLevel.medium
  else RiskLevel.low

/-- The decision part of a fraud assessment (`FraudRiskScore`): overall
score, level and the two decision flags. -/
structure FraudRiskScore where
  overallRisk : ℤ
  riskLevel : RiskLevel
  riskFactors : RiskFactors
  requiresManualReview : Bool
  blockTransaction : Bool
deriving DecidableEq, Repr

/-- The decision layer of `analyzeTransaction` (ai-fraud-detection.ts,
lines 58–80), applied to the computed risk factors: the factor heuristics
themselves depend on the service's mutable history maps, so the factors are
taken as input here; the score, level and flags are computed exactly as in
the source (`requiresManualReview: overallRisk > 70`,
`blockTransaction: overallRisk > 85`). -/
def analyzeTransactionDecision (risks : RiskFactors) : FraudRiskScore :=
  let overallRisk := calculateOverallRisk risks
  { overallRisk := overallRisk
    riskLevel := determineRiskLevel overallRisk
    riskFactors := risks
    requiresManualReview := 70 < overallRisk
    blockTransaction := 85 < overallRisk }

/-! ## Payment confirmation monitor (`nownodes.ts`, production path)

The development branch of each monitor returns randomly generated mock data;
the claims scope to the production path, which is what is embedded here:
the list of transactions returned by the indexing API is the input. -/

/-- Monitor outcome status. -/
inductive MonitorStatus
  | pending
  | confirmed
deriving DecidableEq, Repr

/-- Result shape of `monitorBitcoinTransaction` / `monitorUSDTTransaction`. -/
structure MonitorResult where
  txHash : String
  amount : ℚ
  confirmations : Nat
  status : MonitorStatus
deriving DecidableEq, Repr

/-- A transaction row from the BTC address-transactions API:
`value` is in satoshis. -/
structure BtcChainTx where
  hash : String
  value : ℚ
  confirmations : Nat
deriving DecidableEq, Repr

/-- A transaction row from the ETH address-transactions API: `to` is the
destination contract, `value` the parsed USDT amount. -/
structure EthChainTx where
  hash : String
  toAddress : String
  value : ℚ
  confirmations : Nat
deriving DecidableEq, Repr

/-- Function `monitorBitcoinTransaction` (nownodes.ts, lines 87–121, production
branch): find the first transaction paying at least the expected amount in
satoshis; report `confirmed` exactly when it has ≥ 1 confirmation; with no
matching transaction report `pending` with empty hash, zero amount and zero
confirmations. -/
def monitorBitcoinTransaction (transactions : List BtcChainTx) (expectedAmount : ℚ) :
    MonitorResult :=
  match transactions.find? (fun tx => decide (expectedAmount * 100000000 ≤ tx.value)) with
  | none => { txHash := "", amount := 0, confirmations := 0, status := MonitorStatus.pending }
  | some relevantTx =>
    { txHash := relevantTx.hash
      amount := relevantTx.value / 100000000
      confirmations := relevantTx.confirmations
      status :=
        if 1 ≤ relevantTx.confirmations then MonitorStatus.confirmed else MonitorStatus.pending }

/-- The USDT contract address on Ethereum (nownodes.ts, line 156). -/
def usdtContractAddress : String := "0xdAC17F958D2ee523a2206206994597C13D831ec7"

/-- Function `monitorUSDTTransaction` (nownodes.ts, lines 144–183, production
branch): find the first transfer to the USDT contract of at least the
expected amount; report `confirmed` exactly when it has ≥ 6 confirmations;
otherwise the same empty `pending` result as the BTC monitor. -/
def monitorUSDTTransaction (transactions : List EthChainTx) (expectedAmount : ℚ) :
    MonitorResult :=
  match transactions.find?
      (fun tx => tx.toAddress.toLower == usdtContractAddress.toLower && decide (expectedAmount ≤ tx.value)) with
  | none => { txHash := "", amount := 0, confirmations := 0, status := MonitorStatus.pending }
  | some relevantTx =>
    { txHash := relevantTx.hash
      amount := relevantTx.value
      confirmations := relevantTx.confirmations
      status :=
        if 6 ≤ relevantTx.confirmations then MonitorStatus.confirmed else MonitorStatus.pending }

/-! ## Orchestrator monitoring gate (`payment-orchestrator.ts`, `monitorPayment`) -/

/-- The part of the double-spend gate's `getTransactionStatus` result that
`monitorPayment` consumes. -/
structure DoubleSpendStatus where
  confirmations : Nat
  riskLevel : RiskLevel
  alerts : List DoubleSpendAlert
  safeToAccept : Bool
deriving Repr

/-- The decision of `monitorPayment` (payment-orchestrator.ts,
lines 190–238) on the blockchain branch: given the invoice's payment
address, the monitor result and the double-spend status, `processPayment`
is invoked exactly when a payment address exists, a transaction hash was
observed (non-empty, JS truthiness), the gate says `safeToAccept` and the
monitor says `confirmed`. -/
def monitorPaymentInvokesProcess (payment_address : Option String)
    (monitorResult : MonitorResult) (doubleSpendStatus : DoubleSpendStatus) : Bool :=
  match payment_address with
  | none => false
  | some _ =>
    if monitorResult.txHash = "" then false
    else
      doubleSpendStatus.safeToAccept && decide (monitorResult.status = MonitorStatus.confirmed)

/-! ## Lightning service (`lightning.ts`) -/

/-- Lightning invoice lifecycle states. -/
inductive LightningStatus
  | pending
  | paid
  | expired
deriving DecidableEq, Repr

/-- A stored Lightning invoice (`LightningInvoice`); `expiry_time` is a
unix-seconds timestamp. -/
structure LightningInvoice where
  payment_request : String
  payment_hash : String
  preimage : String
  amount_msat : Nat
  expiry_time : ℤ
  description : String
  created_at : String
  expires_at : String
  status : LightningStatus
deriving DecidableEq, Repr

/-- Lightning payment states (`LightningPayment.status`). -/
inductive PaymentStatus
  | pending
  | succeeded
  | failed
deriving DecidableEq, Repr

/-- A payment record (`LightningPayment`). -/
structure LightningPayment where
  payment_hash : String
  payment_preimage : Option String
  status : PaymentStatus
  amount_msat : Nat
  fee_msat : Option Nat
  created_at : String
  settled_at : Option String
deriving DecidableEq, Repr

/-- The Lightning service's two in-memory maps (`invoiceStore`,
`paymentStore`), modelled as lookup functions. -/
structure LightningState where
  invoiceStore : String → Option LightningInvoice
  paymentStore : String → Option LightningPayment

/-- Function `getInvoiceStatus` (lightning.ts, lines 145–161): look up the invoice;
if it is still `pending` and `now` is past its `expiry_time`, flip it to
`expired` in the store; return the (possibly updated) invoice together with
the resulting store state. -/
def getInvoiceStatus (now : ℤ) (payment_hash : String) (st : LightningState) :
    Option LightningInvoice × LightningState :=
  match st.invoiceStore payment_hash with
  | none => (none, st)
  | some invoice =>
    if invoice.status = LightningStatus.pending ∧ invoice.expiry_time < now then
      let invoice' := { invoice with status := LightningStatus.expired }
      (some invoice',
        { st with
          invoiceStore := fun h => if h = payment_hash then some invoice' else st.invoiceStore h })
    else (some invoice, st)

/-- Function `markInvoiceAsPaid` (lightning.ts, lines 166–202): return `false` and
leave the stores untouched when the invoice is missing or not `pending`;
throw when a supplied preimage does not hash to the payment hash
(`sha256hex` stands for the SHA-256-hex function from the `crypto`
module); otherwise flip the invoice to `paid`, record a succeeded payment
(mock fee 1000 msat, settled at `now`) and return `true`. -/
def markInvoiceAsPaid (sha256hex : String → String) (now : String) (payment_hash : String)
    (preimage : Option String) (st : LightningState) : Except String (Bool × LightningState) :=
  match st.invoiceStore payment_hash with
  | none => Except.ok (false, st)
  | some invoice =>
    if invoice.status ≠ LightningStatus.pending then Except.ok (false, st)
    else
      let verified : Except String Unit :=
        match preimage with
        | some p =>
          if sha256hex p ≠ payment_hash then Except.error "Invalid preimage for payment hash"
          else Except.ok ()
        | none => Except.ok ()
      match verified with
      | Except.error e => Except.error e
      | Except.ok _ =>
        let invoice' := { invoice with status := LightningStatus.paid }
        let payment : LightningPayment :=
          { payment_hash := payment_hash
            payment_preimage := some (preimage.getD invoice.preimage)
            status := PaymentStatus.succeeded
            amount_msat := invoice.amount_msat
            fee_msat := some 1000
            created_at := invoice.created_at
            settled_at := some now }
        Except.ok (true,
          { invoiceStore := fun h => if h = payment_hash then some invoice' else st.invoiceStore h
            paymentStore := fun h => if h = payment_hash then some payment else st.paymentStore h })

/-! ## Conversion timing optimizer (`ai-exchange-optimization.ts`) -/

/-- The four possible recommendations (`OptimizedConversion.recommendedTiming`). -/
inductive Timing
  | immediate
  | wait_5min
  | wait_15min
  | wait_30min
deriving DecidableEq, Repr

/-- Wait duration in minutes of each timing (the `waitMinutes` table inside
the selection loop, lines 198–205). -/
def waitMinutesOf : Timing → ℚ
  | Timing.immediate => 0
  | Timing.wait_5min => 5
  | Timing.wait_15min => 15
  | Timing.wait_30min => 30

/-- Market trend classification. -/
inductive Trend
  | bullish
  | bearish
  | neutral
deriving DecidableEq, Repr

/-- Volatility buckets. -/
inductive Volatility
  | low
  | medium
  | high
deriving DecidableEq, Repr

/-- Values of `MarketConditions.riskLevel` in the source. -/
inductive MarketRiskLevel
  | low
  | medium
  | high
deriving DecidableEq, Repr

/-- Trading volume buckets. -/
inductive VolumeLevel
  | low
  | medium
  | high
deriving DecidableEq, Repr

/-- The fields of `RatePrediction` consumed by `calculateOptimalTiming`:
current rate, predicted rates and confidences per horizon, trend and
volatility. -/
structure RatePrediction where
  currentRate : ℚ
  in5min : ℚ
  in15min : ℚ
  in30min : ℚ
  in1hour : ℚ
  in4hours : ℚ
  conf5min : ℚ
  conf15min : ℚ
  conf30min : ℚ
  conf1hour : ℚ
  conf4hours : ℚ
  trend : Trend
  volatility : Volatility
deriving DecidableEq, Repr

/-- Shape of `MarketConditions` as produced by `analyzeMarketConditions`. -/
structure MarketConditions where
  overallSentiment : Trend
  volatilityIndex : ℚ
  tradingVolume : VolumeLevel
  liquidityScore : ℚ
  riskLevel : MarketRiskLevel
deriving DecidableEq, Repr

/-- Function `calculateRiskAdjustment` (ai-exchange-optimization service,
lines 653–662): ×0.9 for high market risk (×0.95 for medium), and a
further ×0.85 when the volatility index exceeds 80. -/
def calculateRiskAdjustment (conditions : MarketConditions) : ℚ :=
  let adjustment : ℚ := 1
  let adjustment :=
    if conditions.riskLevel = MarketRiskLevel.high then adjustment * (9 / 10)
    else if conditions.riskLevel = MarketRiskLevel.medium then adjustment * (95 / 100)
    else adjustment
  if 80 < conditions.volatilityIndex then adjustment * (85 / 100) else adjustment

/-- Function `calculateRiskFactor` (lines 664–677). -/
def calculateRiskFactor (conditions : MarketConditions) (volatility : Volatility) : ℚ :=
  let risk : ℚ := 20
  let risk :=
    if conditions.riskLevel = MarketRiskLevel.high then risk + 30
    else if conditions.riskLevel = MarketRiskLevel.medium then risk + 15
    else risk
  let risk :=
    if volatility = Volatility.high then risk + 25
    else if volatility = Volatility.medium then risk + 10
    else risk
  min 100 risk

/-- The confidence-weighted potential value of each timing
(`potentialValues` / `weightedValues`, lines 170–187); `immediate` is the
unweighted current value. -/
def weightedValue (amount : ℚ) (currentRate : ℚ) (p : RatePrediction) : Timing → ℚ
  | Timing.immediate => amount * currentRate
  | Timing.wait_5min => amount * p.in5min * (p.conf5min / 100)
  | Timing.wait_15min => amount * p.in15min * (p.conf15min / 100)
  | Timing.wait_30min => amount * p.in30min * (p.conf30min / 100)

/-- The entry order of the `weightedValues` object, which is the iteration
order of the selection loop (`Object.entries` preserves insertion order). -/
def timingOrder : List Timing :=
  [Timing.immediate, Timing.wait_5min, Timing.wait_15min, Timing.wait_30min]

/-- Result shape of `calculateOptimalTiming` (`OptimizedConversion`),
without the free-text alternative strategy. -/
structure OptimizedConversion where
  originalAmount : ℚ
  recommendedTiming : Timing
  estimatedSavings : ℚ
  confidenceLevel : ℚ
  riskFactor : ℚ
  maxWaitTime : ℚ
deriving DecidableEq, Repr

/-- One iteration of the selection loop (lines 196–211): adopt `timing`
when its wait fits in `maxWaitTime` and its risk-adjusted value strictly
beats the best so far. -/
def selectTiming (riskAdjustment maxWaitTime : ℚ) (amount currentRate : ℚ)
    (p : RatePrediction) (best : Timing × ℚ) (timing : Timing) : Timing × ℚ :=
  let adjustedValue := weightedValue amount currentRate p timing * riskAdjustment
  if waitMinutesOf timing ≤ maxWaitTime ∧ best.2 < adjustedValue then (timing, adjustedValue)
  else best

/-- Function `calculateOptimalTiming` (lines 160–240): run the selection loop from
`(immediate, currentValue)` over all four timings and report the chosen
timing, `estimatedSavings = bestValue − currentValue`, the chosen horizon's
confidence (100 for `immediate`) and the risk factor. -/
def calculateOptimalTiming (amount : ℚ) (currentRate : ℚ) (p : RatePrediction)
    (conditions : MarketConditions) (maxWaitTime : ℚ) : OptimizedConversion :=
  let currentValue := amount * currentRate
  let riskAdjustment := calculateRiskAdjustment conditions
  let best := timingOrder.foldl (selectTiming riskAdjustment maxWaitTime amount currentRate p)
    (Timing.immediate, currentValue)
  { originalAmount := amount
    recommendedTiming := best.1
    estimatedSavings := best.2 - currentValue
    confidenceLevel :=
      match best.1 with
      | Timing.immediate => 100
      | Timing.wait_5min => p.conf5min
      | Timing.wait_15min => p.conf15min
      | Timing.wait_30min => p.conf30min
    riskFactor := calculateRiskFactor conditions p.volatility
    maxWaitTime := maxWaitTime }

/-! ## Conversion provider (`yellowcard.ts`) -/

/-- Result shape of `calculateKESAmount`. -/
structure KESCalculation where
  kesAmount : ℚ
  exchangeRate : ℚ
  conversionFee : ℚ
  netAmount : ℚ
deriving DecidableEq, Repr

/-- Function `calculateKESAmount` (yellowcard.ts, lines 64–93): gross KES amount,
the provider conversion fee on it, and the net amount after that fee; the
exchange rate and fee rate for the currency are the values obtained from
`getExchangeRates`. -/
def calculateKESAmount (cryptoAmount exchangeRate feeRate : ℚ) : KESCalculation :=
  let grossKesAmount := cryptoAmount * exchangeRate
  let conversionFee := grossKesAmount * feeRate
  let netAmount := grossKesAmount - conversionFee
  { kesAmount := grossKesAmount
    exchangeRate := exchangeRate
    conversionFee := conversionFee
    netAmount := netAmount }

/-- Function `executeCryptoConversion` (yellowcard.ts, lines 96–125, development
computation path): the KES amount it reports is `calculateKESAmount`'s
net-of-provider-fee amount. -/
def executeCryptoConversionKES (cryptoAmount exchangeRate feeRate : ℚ) : ℚ :=
  (calculateKESAmount cryptoAmount exchangeRate feeRate).netAmount

/-! ## Invoice / transaction orchestrator (`payment-orchestrator.ts`) -/

/-- Invoice lifecycle states. -/
inductive InvoiceStatus
  | pending
  | pending_review
  | paid
  | expired
  | cancelled
deriving DecidableEq, Repr

/-- Settlement preference of an invoice. -/
inductive SettlementPreference
  | mpesa
  | btc
  | lightning
deriving DecidableEq, Repr

/-- The merchant row joined onto an invoice by `select("*, merchants(*)")`. -/
structure Merchant where
  business_name : String
  mpesa_number : String
  bitcoin_address : String
deriving DecidableEq, Repr

/-- An invoice row together with its joined merchant. -/
structure Invoice where
  id : String
  merchant_id : String
  amount : ℚ
  currency : String
  description : String
  settlement_preference : SettlementPreference
  status : InvoiceStatus
  expires_at : String
  payment_address : Option String
  transaction_hash : Option String
  settlement_tx_id : Option String
  merchants : Merchant
deriving DecidableEq, Repr

/-- Request metadata supplied to `createInvoice`. -/
structure RequestMetadata where
  ipAddress : Option String
  userAgent : Option String
  locationCountry : Option String
  locationCity : Option String
deriving DecidableEq, Repr

/-- The `createInvoice` request payload. -/
structure InvoiceData where
  merchant_id : String
  amount : ℚ
  currency : String
  description : String
  settlement_preference : SettlementPreference
  request_metadata : Option RequestMetadata
deriving DecidableEq, Repr

/-- The fraud pre-screening `try` body of `createInvoice`
(payment-orchestrator.ts, lines 38–56): run the assessment and throw when
it says `blockTransaction`. -/
def fraudPreScreen (factors : RiskFactors) : Except String FraudRiskScore :=
  let riskAssessment := analyzeTransactionDecision factors
  if riskAssessment.blockTransaction then
    Except.error "Transaction blocked due to high fraud risk"
  else Except.ok riskAssessment

/-- The `catch` of the same `try` (lines 57–60): any error — including the
block raised above — is logged and invoice creation continues; the
`riskAssessment` variable was assigned before the throw, so it keeps the
blocking assessment. -/
def riskAssessmentAfterCatch (factors : RiskFactors) : Option FraudRiskScore :=
  match fraudPreScreen factors with
  | Except.ok ra => some ra
  | Except.error _ => some (analyzeTransactionDecision factors)

/-- Function `createInvoice` (payment-orchestrator.ts, lines 13–104, non-Lightning
payment method): run the fraud pre-screen when request metadata is present
(its outcome handled per `riskAssessmentAfterCatch`), then insert the
invoice with status `pending_review` when the assessment requires manual
review and `pending` otherwise, and return it. -/
def createInvoice (store : String → Option Invoice) (invoiceId : String) (d : InvoiceData)
    (factors : RiskFactors) (merchant : Merchant) (expiresAt : String) :
    (String → Option Invoice) × Invoice × Option FraudRiskScore :=
  let riskAssessment : Option FraudRiskScore :=
    match d.request_metadata with
    | none => none
    | some _ => riskAssessmentAfterCatch factors
  let invoice : Invoice :=
    { id := invoiceId
      merchant_id := d.merchant_id
      amount := d.amount
      currency := d.currency
      description := d.description
      settlement_preference := d.settlement_preference
      status :=
        if (riskAssessment.map (fun ra => ra.requiresManualReview)).getD false then
          InvoiceStatus.pending_review
        else InvoiceStatus.pending
      expires_at := expiresAt
      payment_address := none
      transaction_hash := none
      settlement_tx_id := none
      merchants := merchant }
  (fun h => if h = invoiceId then some invoice else store h, invoice, riskAssessment)

/-- Transaction lifecycle states. -/
inductive TxStatus
  | pending
  | processing
  | completed
  | failed
deriving DecidableEq, Repr

/-- A transaction row. -/
structure Transaction where
  id : Nat
  invoice_id : String
  merchant_id : String
  crypto_currency : String
  crypto_amount : ℚ
  fiat_amount : ℚ
  exchange_rate : ℚ
  blockchain_confirmations : Nat
  transaction_hash : String
  status : TxStatus
  service_fee : Option ℚ
  mpesa_reference : Option String
deriving DecidableEq, Repr

/-- The `paymentData` argument of `processPayment`. -/
structure PaymentData where
  cryptoCurrency : String
  cryptoAmount : ℚ
  transactionHash : String
  confirmations : Nat
deriving DecidableEq, Repr

/-- Orchestrator-visible persistent state: the invoice table, the
transaction table (rows get ids from `nextTxId`), and the log of payout
rail invocations (`mpesaService.sendMoney` calls, recipient and amount). -/
structure OrchestratorState where
  invoices : String → Option Invoice
  transactions : List Transaction
  payouts : List (String × ℚ)
  nextTxId : Nat

/-- External inputs consumed during a settlement: the conversion provider's
rate and fee for the currency, the optimizer's recommendation, and the
payout rail's reported outcome.  In the source these come from network or
mock sources; they are explicit inputs here. -/
structure SettlementEnv where
  exchangeRate : ℚ
  conversionFeeRate : ℚ
  recommendedTiming : Timing
  estimatedSavings : ℚ
  mpesaCompleted : Bool
  mpesaReceipt : String
  mpesaTransactionId : String
deriving DecidableEq, Repr

/-- The fixed service fee rate (0.025, payment-orchestrator.ts line 461). -/
def serviceFeeRate : ℚ := 25 / 1000

/-- The KES amount credited by the conversion step of `processKESSettlement`
(lines 412–458): the provider's net conversion result, plus — when the
optimizer recommended waiting — the AI optimization `estimatedSavings`
(line 457). -/
def conversionKesAmount (cryptoAmount exchangeRate feeRate estimatedSavings : ℚ)
    (timing : Timing) : ℚ :=
  let kesAmount := executeCryptoConversionKES cryptoAmount exchangeRate feeRate
  if timing = Timing.immediate then kesAmount else kesAmount + estimatedSavings

/-- The amount handed to the payout rail by `processKESSettlement`
(lines 460–471): the conversion result minus the 2.5% service fee. -/
def kesPayoutAmount (cryptoAmount exchangeRate feeRate estimatedSavings : ℚ)
    (timing : Timing) : ℚ :=
  let kesAmount := conversionKesAmount cryptoAmount exchangeRate feeRate estimatedSavings timing
  let serviceFee := kesAmount * serviceFeeRate
  kesAmount - serviceFee

/-- Update the transaction row with the given id. -/
def updateTransaction (txs : List Transaction) (txId : Nat)
    (f : Transaction → Transaction) : List Transaction :=
  txs.map (fun t => if t.id = txId then f t else t)

/-- Function `processKESSettlement` (payment-orchestrator.ts, lines 402–503, success
path): convert, deduct the service fee, invoke the payout rail with the net
amount, and record rate, fees, payout reference and final status
(`completed` when the rail reports completed, else `pending`) on the
transaction and the settlement reference on the invoice.  The `catch`
branch (mark the transaction `failed` and rethrow) is taken only when an
external call throws, which the success-path claims do not exercise. -/
def processKESSettlement (st : OrchestratorState) (transactionId : Nat) (invoice : Invoice)
    (paymentData : PaymentData) (env : SettlementEnv) : OrchestratorState :=
  let kesAmount := conversionKesAmount paymentData.cryptoAmount env.exchangeRate
    env.conversionFeeRate env.estimatedSavings env.recommendedTiming
  let serviceFee := kesAmount * serviceFeeRate
  let netKESAmount := kesAmount - serviceFee
  { st with
    payouts := st.payouts ++ [(invoice.merchants.mpesa_number, netKESAmount)]
    transactions := updateTransaction st.transactions transactionId (fun t =>
      { t with
        fiat_amount := kesAmount
        exchange_rate := kesAmount / paymentData.cryptoAmount
        service_fee := some serviceFee
        status := if env.mpesaCompleted then TxStatus.completed else TxStatus.pending
        mpesa_reference := some env.mpesaReceipt })
    invoices := fun h =>
      if h = invoice.id then
        (st.invoices h).map (fun inv => { inv with settlement_tx_id := some env.mpesaTransactionId })
      else st.invoices h }

/-- Function `processBitcoinSettlement` (lines 506–547): deduct the 2.5% service fee
from the crypto amount and mark the transaction `completed`. -/
def processBitcoinSettlement (st : OrchestratorState) (transactionId : Nat)
    (paymentData : PaymentData) : OrchestratorState :=
  let serviceFee := paymentData.cryptoAmount * serviceFeeRate
  { st with
    transactions := updateTransaction st.transactions transactionId (fun t =>
      { t with service_fee := some serviceFee, status := TxStatus.completed }) }

/-- The first half of `processPayment` (payment-orchestrator.ts,
lines 343–391): look the invoice up (throw when missing), insert a new
transaction with status `processing`, and flip the invoice to `paid` —
with no check whatsoever against transactions that already exist for the
invoice.  Returns the new state, the inserted transaction's id and the
fetched invoice. -/
def processPaymentInsert (st : OrchestratorState) (invoiceId : String)
    (paymentData : PaymentData) : Except String (OrchestratorState × Nat × Invoice) :=
  match st.invoices invoiceId with
  | none => Except.error "Invoice not found"
  | some invoice =>
    let txId := st.nextTxId
    let transaction : Transaction :=
      { id := txId
        invoice_id := invoiceId
        merchant_id := invoice.merchant_id
        crypto_currency := paymentData.cryptoCurrency
        crypto_amount := paymentData.cryptoAmount
        fiat_amount := invoice.amount
        exchange_rate := 0
        blockchain_confirmations := paymentData.confirmations
        transaction_hash := paymentData.transactionHash
        status := TxStatus.processing
        service_fee := none
        mpesa_reference := none }
    let invoice' :=
      { invoice with
        status := InvoiceStatus.paid
        transaction_hash := some paymentData.transactionHash }
    Except.ok
      ({ st with
          invoices := fun h => if h = invoiceId then some invoice' else st.invoices h
          transactions := st.transactions ++ [transaction]
          nextTxId := txId + 1 }, txId, invoice)

/-- Function `processPayment` (lines 343–399): insert the `processing` transaction,
mark the invoice `paid`, then dispatch the settlement according to the
invoice's settlement preference. -/
def processPayment (st : OrchestratorState) (invoiceId : String) (paymentData : PaymentData)
    (env : SettlementEnv) : Except String OrchestratorState :=
  match processPaymentInsert st invoiceId paymentData with
  | Except.error e => Except.error e
  | Except.ok (st', txId, invoice) =>
    if invoice.settlement_preference = SettlementPreference.mpesa then
      Except.ok (processKESSettlement st' txId invoice paymentData env)
    else
      Except.ok (processBitcoinSettlement st' txId paymentData)

/-! ## Concrete fixtures used by the counterexample-style theorems -/

/-- A concrete merchant. -/
def sampleMerchant : Merchant :=
  { business_name := "Acme Traders"
    mpesa_number := "254700000000"
    bitcoin_address := "bc1qmerchant" }

/-- A concrete invoice awaiting a BTC payment with M-Pesa settlement. -/
def sampleInvoice : Invoice :=
  { id := "INV-1"
    merchant_id := "M1"
    amount := 100
    currency := "USD"
    description := "order 42"
    settlement_preference := SettlementPreference.mpesa
    status := InvoiceStatus.pending
    expires_at := "2025-01-02T00:00:00Z"
    payment_address := some "bc1qpay"
    transaction_hash := none
    settlement_tx_id := none
    merchants := sampleMerchant }

/-- Initial orchestrator state: just `sampleInvoice`, no transactions. -/
def sampleState : OrchestratorState :=
  { invoices := fun h => if h = "INV-1" then some sampleInvoice else none
    transactions := []
    payouts := []
    nextTxId := 0 }

/-- A concrete observed payment. -/
def samplePayment : PaymentData :=
  { cryptoCurrency := "BTC"
    cryptoAmount := 1 / 100
    transactionHash := "0xabc"
    confirmations := 2 }

/-- A concrete settlement environment (immediate conversion, payout rail
reports completed). -/
def sampleEnv : SettlementEnv :=
  { exchangeRate := 5500000
    conversionFeeRate := 15 / 1000
    recommendedTiming := Timing.immediate
    estimatedSavings := 0
    mpesaCompleted := true
    mpesaReceipt := "QR123"
    mpesaTransactionId := "MP123" }

/-- A concrete `createInvoice` request carrying request metadata. -/
def sampleInvoiceData : InvoiceData :=
  { merchant_id := "M1"
    amount := 100
    currency := "USD"
    description := "order 42"
    settlement_preference := SettlementPreference.mpesa
    request_metadata := some { ipAddress := some "203.0.113.7"
                               userAgent := some "Mozilla/5.0"
                               locationCountry := some "Kenya"
                               locationCity := some "Nairobi" } }

/-- Risk factors that score overall 90 — above both decision thresholds. -/
def blockedFactors : RiskFactors :=
  { velocityRisk := 90
    amountRisk := 90
    locationRisk := 90
    behaviorRisk := 90
    reputationRisk := 90 }

/-! ## Helper lemmas -/

/-- A filtered list is nonempty exactly when some element satisfies the
predicate. -/
theorem length_filter_pos {α : Type} (p : α → Bool) (l : List α) :
    0 < (l.filter p).length ↔ ∃ a ∈ l, p a = true := by
  induction l with
  | nil => simp
  | cons x xs ih =>
    by_cases hx : p x <;> simp [List.filter_cons, hx, ih]

/-- The market-risk adjustment never exceeds 1. -/
theorem calculateRiskAdjustment_le_one (c : MarketConditions) :
    calculateRiskAdjustment c ≤ 1 := by
  unfold calculateRiskAdjustment
  split_ifs <;> norm_num

/-- The selection loop preserves a wait bound on the running best. -/
theorem selectTiming_foldl_wait (A mw a r : ℚ) (p : RatePrediction)
    (l : List Timing) (b : Timing × ℚ) (hb : waitMinutesOf b.1 ≤ mw) :
    waitMinutesOf ((l.foldl (selectTiming A mw a r p) b).1) ≤ mw := by
  induction l generalizing b with
  | nil => exact hb
  | cons t ts ih =>
    simp only [List.foldl_cons]
    apply ih
    by_cases hc : waitMinutesOf t ≤ mw ∧ b.2 < weightedValue a r p t * A
    · simp only [selectTiming, if_pos hc]
      exact hc.1
    · simpa [selectTiming, hc] using hb

/-- If no element of the loop beats the running best, the fold is the
identity. -/
theorem selectTiming_foldl_keep (A mw a r : ℚ) (p : RatePrediction)
    (l : List Timing) (b : Timing × ℚ)
    (hl : ∀ t ∈ l, ¬(waitMinutesOf t ≤ mw ∧ b.2 < weightedValue a r p t * A)) :
    l.foldl (selectTiming A mw a r p) b = b := by
  induction l with
  | nil => rfl
  | cons t ts ih =>
    have hstep : selectTiming A mw a r p b t = b := by
      simp [selectTiming, hl t (by simp)]
    simp only [List.foldl_cons, hstep]
    exact ih (fun u hu => hl u (by simp [hu]))

/-- Once the running best is a non-`immediate` timing, it stays
non-`immediate` as long as every remaining timing is non-`immediate`. -/
theorem selectTiming_foldl_ne_immediate (A mw a r : ℚ) (p : RatePrediction)
    (l : List Timing) (b : Timing × ℚ) (hb : b.1 ≠ Timing.immediate)
    (hl : ∀ t ∈ l, t ≠ Timing.immediate) :
    ((l.foldl (selectTiming A mw a r p) b).1) ≠ Timing.immediate := by
  induction l generalizing b with
  | nil => exact hb
  | cons t ts ih =>
    simp only [List.foldl_cons]
    apply ih
    · by_cases hc : waitMinutesOf t ≤ mw ∧ b.2 < weightedValue a r p t * A
      · simpa [selectTiming, hc] using hl t (by simp)
      · simpa [selectTiming, hc] using hb
    · exact fun u hu => hl u (by simp [hu])

/-- If the fold over non-`immediate` timings still ends on `immediate`, no
timing in the list was adoptable against the initial best value. -/
theorem selectTiming_foldl_imm (A mw a r : ℚ) (p : RatePrediction)
    (l : List Timing) (b : Timing × ℚ) (hb : b.1 = Timing.immediate)
    (hl : ∀ t ∈ l, t ≠ Timing.immediate)
    (hres : ((l.foldl (selectTiming A mw a r p) b).1) = Timing.immediate) :
    ∀ t ∈ l, ¬(waitMinutesOf t ≤ mw ∧ b.2 < weightedValue a r p t * A) := by
  induction l generalizing b with
  | nil => simp
  | cons t ts ih =>
    intro u hu
    by_cases hc : waitMinutesOf t ≤ mw ∧ b.2 < weightedValue a r p t * A
    · exfalso
      have hstep : selectTiming A mw a r p b t = (t, weightedValue a r p t * A) := by
        simp [selectTiming, hc]
      rw [List.foldl_cons, hstep] at hres
      exact selectTiming_foldl_ne_immediate A mw a r p ts (t, weightedValue a r p t * A)
        (hl t (by simp)) (fun v hv => hl v (by simp [hv])) hres
    · rcases List.mem_cons.mp hu with rfl | hu'
      · exact hc
      · have hstep : selectTiming A mw a r p b t = b := by simp [selectTiming, hc]
        rw [List.foldl_cons, hstep] at hres
        exact ih b hb (fun v hv => hl v (by simp [hv])) hres u hu'

/-- The fold either returns its initial accumulator, or an adoptable pair
`(t, adjusted value of t)` for some `t` in the list. -/
theorem selectTiming_foldl_result (A mw a r : ℚ) (p : RatePrediction)
    (l : List Timing) (b : Timing × ℚ) :
    l.foldl (selectTiming A mw a r p) b = b ∨
      ∃ t ∈ l, l.foldl (selectTiming A mw a r p) b = (t, weightedValue a r p t * A) ∧
        waitMinutesOf t ≤ mw := by
  induction l generalizing b with
  | nil => exact Or.inl rfl
  | cons t ts ih =>
    simp only [List.foldl_cons]
    by_cases hc : waitMinutesOf t ≤ mw ∧ b.2 < weightedValue a r p t * A
    · have hstep : selectTiming A mw a r p b t = (t, weightedValue a r p t * A) := by
        simp [selectTiming, hc]
      rw [hstep]
      rcases ih (t, weightedValue a r p t * A) with h | ⟨u, hu, hr, hw⟩
      · exact Or.inr ⟨t, by simp, h, hc.1⟩
      · exact Or.inr ⟨u, by simp [hu], hr, hw⟩
    · have hstep : selectTiming A mw a r p b t = b := by simp [selectTiming, hc]
      rw [hstep]
      rcases ih b with h | ⟨u, hu, hr, hw⟩
      · exact Or.inl h
      · exact Or.inr ⟨u, by simp [hu], hr, hw⟩

/-! ## Claim theorems (double-spend gate, risk gate) -/

/-- C2: for every list of alerts and confirmation count `c`, the gate's
`isSafeToAccept` verdict is `true` exactly when no alert is `critical`, any
`high` alert is covered by `c ≥ 3`, and any `medium` alert is covered by
`c ≥ 1`; in particular it is `false` whenever a `critical` alert is present
(regardless of `c`), `true` on the empty list, and a single `medium` alert
gives `false` at `c = 0` and `true` at `c = 1`. -/
theorem isSafeToAccept_spec (alerts : List DoubleSpendAlert) (c : Nat) :
    isSafeToAccept alerts c = true ↔
      ((∀ a ∈ alerts, a.severity ≠ Severity.critical) ∧
        ((∃ a ∈ alerts, a.severity = Severity.high) → 3 ≤ c) ∧
        ((∃ a ∈ alerts, a.severity = Severity.medium) → 1 ≤ c)) := by
  unfold isSafeToAccept
  simp only [length_filter_pos, decide_eq_true_eq]
  split_ifs with h1 h2 h3
  · simp only [false_iff]
    rintro ⟨hcrit, -, -⟩
    obtain ⟨a, ha, hsev⟩ := h1
    exact hcrit a ha hsev
  · simp only [false_iff]
    rintro ⟨-, hhigh, -⟩
    exact absurd (hhigh h2.1) (by omega)
  · simp only [false_iff]
    rintro ⟨-, -, hmed⟩
    exact absurd (hmed h3.1) (by omega)
  · simp only [true_iff]
    push_neg at h1 h2 h3
    exact ⟨h1, h2, h3⟩

/-- C7: the risk gate's overall score is monotonically non-decreasing in
each of the five factors: componentwise `x ≤ y` implies
`calculateOverallRisk x ≤ calculateOverallRisk y`. -/
theorem calculateOverallRisk_monotone (x y : RiskFactors)
    (hv : x.velocityRisk ≤ y.velocityRisk)
    (ha : x.amountRisk ≤ y.amountRisk)
    (hl : x.locationRisk ≤ y.locationRisk)
    (hb : x.behaviorRisk ≤ y.behaviorRisk)
    (hr : x.reputationRisk ≤ y.reputationRisk) :
    calculateOverallRisk x ≤ calculateOverallRisk y := by
  unfold calculateOverallRisk jsRound
  apply Int.floor_le_floor
  nlinarith

/-- Witness for C7 at a concrete pair of factor vectors. -/
theorem calculateOverallRisk_monotone_witness :
    calculateOverallRisk ⟨10, 20, 30, 40, 50⟩ ≤ calculateOverallRisk ⟨90, 20, 35, 40, 55⟩ :=
  calculateOverallRisk_monotone ⟨10, 20, 30, 40, 50⟩ ⟨90, 20, 35, 40, 55⟩
    (by norm_num) (by norm_num) (by norm_num) (by norm_num) (by norm_num)

/-- C5: on the production path, the BTC monitor reports `confirmed` exactly
when the matching transaction has ≥ 1 confirmation, the USDT monitor
exactly when it has ≥ 6; with no matching transaction either monitor
returns `pending` with empty hash, zero amount and zero confirmations; and
neither ever reports `confirmed` without an observed matching
transaction. -/
theorem monitor_confirmation_thresholds
    (btcTxs : List BtcChainTx) (ethTxs : List EthChainTx) (amt : ℚ) :
    (∀ tx, btcTxs.find? (fun tx => decide (amt * 100000000 ≤ tx.value)) = some tx →
        ((monitorBitcoinTransaction btcTxs amt).status = MonitorStatus.confirmed ↔
          1 ≤ tx.confirmations)) ∧
    (btcTxs.find? (fun tx => decide (amt * 100000000 ≤ tx.value)) = none →
      monitorBitcoinTransaction btcTxs amt =
        { txHash := "", amount := 0, confirmations := 0, status := MonitorStatus.pending }) ∧
    ((monitorBitcoinTransaction btcTxs amt).status = MonitorStatus.confirmed →
      ∃ tx, btcTxs.find? (fun tx => decide (amt * 100000000 ≤ tx.value)) = some tx ∧
        amt * 100000000 ≤ tx.value) ∧
    (∀ tx, ethTxs.find?
        (fun tx => tx.toAddress.toLower == usdtContractAddress.toLower && decide (amt ≤ tx.value)) =
          some tx →
        ((monitorUSDTTransaction ethTxs amt).status = MonitorStatus.confirmed ↔
          6 ≤ tx.confirmations)) ∧
    (ethTxs.find?
        (fun tx => tx.toAddress.toLower == usdtContractAddress.toLower && decide (amt ≤ tx.value)) =
          none →
      monitorUSDTTransaction ethTxs amt =
        { txHash := "", amount := 0, confirmations := 0, status := MonitorStatus.pending }) ∧
    ((monitorUSDTTransaction ethTxs amt).status = MonitorStatus.confirmed →
      ∃ tx, ethTxs.find?
          (fun tx => tx.toAddress.toLower == usdtContractAddress.toLower && decide (amt ≤ tx.value)) =
            some tx ∧ amt ≤ tx.value) := by
  refine ⟨?_, ?_, ?_, ?_, ?_, ?_⟩
  · intro tx h
    simp only [monitorBitcoinTransaction, h]
    split <;> simp_all
  · intro h
    simp [monitorBitcoinTransaction, h]
  · intro h
    cases hf : btcTxs.find? (fun tx => decide (amt * 100000000 ≤ tx.value)) with
    | none => simp [monitorBitcoinTransaction, hf] at h
    | some tx =>
      have hp := List.find?_some hf
      simp only [decide_eq_true_eq] at hp
      exact ⟨tx, rfl, hp⟩
  · intro tx h
    simp only [monitorUSDTTransaction, h]
    split <;> simp_all
  · intro h
    simp [monitorUSDTTransaction, h]
  · intro h
    cases hf : ethTxs.find?
        (fun tx => tx.toAddress.toLower == usdtContractAddress.toLower && decide (amt ≤ tx.value)) with
    | none => simp [monitorUSDTTransaction, hf] at h
    | some tx =>
      have hp := List.find?_some hf
      simp only [Bool.and_eq_true, decide_eq_true_eq] at hp
      exact ⟨tx, rfl, hp.2⟩

/-- Witness for C5 at a concrete chain state: a BTC transaction of
2,000,000 satoshis with 1 confirmation matches an expected amount of
0.01 BTC and is reported `confirmed`. -/
theorem monitor_confirmation_thresholds_witness :
    (monitorBitcoinTransaction [⟨"txA", 2000000, 1⟩] (1 / 100)).status =
      MonitorStatus.confirmed :=
  ((monitor_confirmation_thresholds [⟨"txA", 2000000, 1⟩] [] (1 / 100)).1
      ⟨"txA", 2000000, 1⟩ (by norm_num [List.find?])).mpr (by norm_num)

/-- C4: `monitorPayment` invokes `processPayment` only when the monitor
reports `confirmed` and the double-spend gate reports `safeToAccept`; in
particular a BTC payment observed with 0 confirmations (production monitor
path) never triggers `processPayment`. -/
theorem monitorPayment_gates_processPayment (addr : Option String)
    (mr : MonitorResult) (ds : DoubleSpendStatus) (btcTxs : List BtcChainTx) (amt : ℚ) :
    (monitorPaymentInvokesProcess addr mr ds = true →
      mr.status = MonitorStatus.confirmed ∧ ds.safeToAccept = true) ∧
    ((monitorBitcoinTransaction btcTxs amt).confirmations = 0 →
      monitorPaymentInvokesProcess addr (monitorBitcoinTransaction btcTxs amt) ds = false) := by
  constructor
  · intro h
    cases addr with
    | none => simp [monitorPaymentInvokesProcess] at h
    | some a =>
      simp only [monitorPaymentInvokesProcess] at h
      split at h
      · exact absurd h (by simp)
      · simp only [Bool.and_eq_true, decide_eq_true_eq] at h
        exact ⟨h.2, h.1⟩
  · intro h0
    cases addr with
    | none => simp [monitorPaymentInvokesProcess]
    | some a =>
      cases hf : btcTxs.find? (fun tx => decide (amt * 100000000 ≤ tx.value)) with
      | none => simp [monitorPaymentInvokesProcess, monitorBitcoinTransaction, hf]
      | some tx =>
        simp only [monitorBitcoinTransaction, hf] at h0 ⊢
        simp only [monitorPaymentInvokesProcess]
        split
        · rfl
        · simp [h0]

/-- Witness for C4: with a payment address present, a confirmed safe
observation does invoke `processPayment`, and the theorem yields the two
gate conditions; a 0-confirmation observation does not invoke it. -/
theorem monitorPayment_gates_processPayment_witness :
    (MonitorResult.mk "txA" 1 2 MonitorStatus.confirmed).status = MonitorStatus.confirmed ∧
    (DoubleSpendStatus.mk 2 RiskLevel.low [] true).safeToAccept = true ∧
    monitorPaymentInvokesProcess (some "bc1qaddr")
      (monitorBitcoinTransaction [⟨"txB", 2000000, 0⟩] (1 / 100))
      (DoubleSpendStatus.mk 0 RiskLevel.low [] true) = false := by
  refine ⟨?_, ?_, ?_⟩
  · exact ((monitorPayment_gates_processPayment (some "bc1qaddr")
      (MonitorResult.mk "txA" 1 2 MonitorStatus.confirmed)
      (DoubleSpendStatus.mk 2 RiskLevel.low [] true) [] 0).1 (by decide)).1
  · exact ((monitorPayment_gates_processPayment (some "bc1qaddr")
      (MonitorResult.mk "txA" 1 2 MonitorStatus.confirmed)
      (DoubleSpendStatus.mk 2 RiskLevel.low [] true) [] 0).1 (by decide)).2
  · exact (monitorPayment_gates_processPayment (some "bc1qaddr")
      (MonitorResult.mk "txA" 1 2 MonitorStatus.confirmed)
      (DoubleSpendStatus.mk 0 RiskLevel.low [] true)
      [⟨"txB", 2000000, 0⟩] (1 / 100)).2 (by norm_num [monitorBitcoinTransaction, List.find?])

/-- C9: reading a Lightning invoice that is still `pending` after its
`expiry_time` has passed flips the stored status to `expired`; the flip is
idempotent (every subsequent read, at any later instant, returns the
`expired` invoice and leaves the store exactly as it is), and a
non-`pending` invoice is never changed by a read. -/
theorem getInvoiceStatus_expiry (st : LightningState) (now now₂ : ℤ) (hash : String)
    (inv : LightningInvoice) (hst : st.invoiceStore hash = some inv) :
    (inv.status = LightningStatus.pending → inv.expiry_time < now →
      (getInvoiceStatus now hash st).1 = some { inv with status := LightningStatus.expired } ∧
      (getInvoiceStatus now hash st).2.invoiceStore hash =
        some { inv with status := LightningStatus.expired } ∧
      getInvoiceStatus now₂ hash (getInvoiceStatus now hash st).2 =
        ((getInvoiceStatus now hash st).1, (getInvoiceStatus now hash st).2)) ∧
    (inv.status ≠ LightningStatus.pending → getInvoiceStatus now hash st = (some inv, st)) := by
  constructor
  · intro hp hexp
    have hcond : inv.status = LightningStatus.pending ∧ inv.expiry_time < now := ⟨hp, hexp⟩
    refine ⟨?_, ?_, ?_⟩
    · simp [getInvoiceStatus, hst, hcond]
    · simp [getInvoiceStatus, hst, hcond]
    · simp [getInvoiceStatus, hst, hcond]
  · intro hp
    simp [getInvoiceStatus, hst, hp]

/-- Witness for C9 at a concrete store: one pending invoice that expired at
time 100, read at times 200 and then 300. -/
theorem getInvoiceStatus_expiry_witness :
    (getInvoiceStatus 200 "hashA"
        ⟨fun h => if h = "hashA" then
            some ⟨"req", "hashA", "pre", 1000, 100, "d", "c", "e", LightningStatus.pending⟩
          else none,
          fun _ => none⟩).1 =
      some ⟨"req", "hashA", "pre", 1000, 100, "d", "c", "e", LightningStatus.expired⟩ :=
  ((getInvoiceStatus_expiry
      ⟨fun h => if h = "hashA" then
          some ⟨"req", "hashA", "pre", 1000, 100, "d", "c", "e", LightningStatus.pending⟩
        else none,
        fun _ => none⟩ 200 300 "hashA"
      ⟨"req", "hashA", "pre", 1000, 100, "d", "c", "e", LightningStatus.pending⟩
      (by simp)).1 rfl (by norm_num)).1

/-- C10: `markInvoiceAsPaid` returns `false` and leaves the stores
unchanged on a missing invoice or one whose status is not `pending` (so an
`expired` invoice can never become `paid`); it returns `true` only when the
stored invoice existed with status `pending`, in which case the store holds
the invoice as `paid` and any retry (with any preimage, at any later time)
returns `false` and leaves the stores unchanged — the transition to `paid`
happens at most once. -/
theorem markInvoiceAsPaid_spec (sha256hex : String → String) (now now₂ : String)
    (hash : String) (preimage preimage₂ : Option String) (st : LightningState) :
    (st.invoiceStore hash = none →
      markInvoiceAsPaid sha256hex now hash preimage st = Except.ok (false, st)) ∧
    (∀ inv, st.invoiceStore hash = some inv → inv.status ≠ LightningStatus.pending →
      markInvoiceAsPaid sha256hex now hash preimage st = Except.ok (false, st)) ∧
    (∀ st', markInvoiceAsPaid sha256hex now hash preimage st = Except.ok (true, st') →
      (∃ inv, st.invoiceStore hash = some inv ∧ inv.status = LightningStatus.pending ∧
        st'.invoiceStore hash = some { inv with status := LightningStatus.paid }) ∧
      markInvoiceAsPaid sha256hex now₂ hash preimage₂ st' = Except.ok (false, st')) := by
  refine ⟨?_, ?_, ?_⟩
  · intro h
    simp [markInvoiceAsPaid, h]
  · intro inv h hs
    simp [markInvoiceAsPaid, h, hs]
  · intro st' h
    cases hst : st.invoiceStore hash with
    | none => simp [markInvoiceAsPaid, hst] at h
    | some inv =>
      by_cases hp : inv.status = LightningStatus.pending
      · cases hpre : preimage with
        | none =>
          simp only [markInvoiceAsPaid, hst, hpre, hp, ne_eq, not_true_eq_false,
            if_false] at h
          rw [Except.ok.injEq, Prod.mk.injEq] at h
          obtain ⟨-, rfl⟩ := h
          refine ⟨⟨inv, rfl, hp, by simp⟩, ?_⟩
          simp [markInvoiceAsPaid]
        | some p =>
          by_cases hv : sha256hex p = hash
          · simp only [markInvoiceAsPaid, hst, hpre, hp, hv, ne_eq, not_true_eq_false,
              if_false] at h
            rw [Except.ok.injEq, Prod.mk.injEq] at h
            obtain ⟨-, rfl⟩ := h
            refine ⟨⟨inv, rfl, hp, by simp⟩, ?_⟩
            simp [markInvoiceAsPaid]
          · simp [markInvoiceAsPaid, hst, hpre, hp, hv] at h
      · simp [markInvoiceAsPaid, hst, hp] at h

/-- Witness for C10: paying a concrete pending invoice succeeds once, and
the theorem yields that the retry fails and the invoice is stored as
`paid`. -/
theorem markInvoiceAsPaid_spec_witness :
    ∃ st', markInvoiceAsPaid (fun _ => "h") "t1" "hashB" none
        ⟨fun h => if h = "hashB" then
            some ⟨"req", "hashB", "pre", 1000, 100, "d", "c", "e", LightningStatus.pending⟩
          else none,
          fun _ => none⟩ = Except.ok (true, st') ∧
      st'.invoiceStore "hashB" =
        some ⟨"req", "hashB", "pre", 1000, 100, "d", "c", "e", LightningStatus.paid⟩ ∧
      markInvoiceAsPaid (fun _ => "h") "t2" "hashB" none st' = Except.ok (false, st') := by
  have happly := (markInvoiceAsPaid_spec (fun _ => "h") "t1" "t2" "hashB" none none
    ⟨fun h => if h = "hashB" then
        some ⟨"req", "hashB", "pre", 1000, 100, "d", "c", "e", LightningStatus.pending⟩
      else none,
      fun _ => none⟩).2.2
  refine ⟨_, rfl, ?_, (happly _ rfl).2⟩
  obtain ⟨inv, hinv, -, hpaid⟩ := (happly _ rfl).1
  simp only [if_true, Option.some.injEq] at hinv
  subst hinv
  exact hpaid

/-- C8: for every optimizer input with nonnegative amount, rate and wait
limit, (1) the recommended timing's wait never exceeds `maxWaitTime`;
(2) the recommendation is `immediate` unless some allowed horizon's
confidence-weighted projected value, scaled by the market-risk adjustment,
strictly exceeds the immediate-conversion value (ties favour `immediate`);
(3) `estimatedSavings` is 0 when `immediate` is recommended and otherwise
equals the chosen horizon's risk-adjusted value minus the immediate
value. -/
theorem calculateOptimalTiming_spec (amount currentRate : ℚ) (p : RatePrediction)
    (conditions : MarketConditions) (maxWaitTime : ℚ)
    (hamt : 0 ≤ amount) (hrate : 0 ≤ currentRate) (hwait : 0 ≤ maxWaitTime) :
    waitMinutesOf
        (calculateOptimalTiming amount currentRate p conditions maxWaitTime).recommendedTiming ≤
      maxWaitTime ∧
    ((calculateOptimalTiming amount currentRate p conditions maxWaitTime).recommendedTiming =
        Timing.immediate ↔
      ∀ t ∈ [Timing.wait_5min, Timing.wait_15min, Timing.wait_30min],
        ¬(waitMinutesOf t ≤ maxWaitTime ∧
          amount * currentRate <
            weightedValue amount currentRate p t * calculateRiskAdjustment conditions)) ∧
    ((calculateOptimalTiming amount currentRate p conditions maxWaitTime).recommendedTiming =
        Timing.immediate →
      (calculateOptimalTiming amount currentRate p conditions maxWaitTime).estimatedSavings = 0) ∧
    (∀ t,
      (calculateOptimalTiming amount currentRate p conditions maxWaitTime).recommendedTiming = t →
      t ≠ Timing.immediate →
      (calculateOptimalTiming amount currentRate p conditions maxWaitTime).estimatedSavings =
        weightedValue amount currentRate p t * calculateRiskAdjustment conditions -
          amount * currentRate) := by
  have hcv : (0 : ℚ) ≤ amount * currentRate := mul_nonneg hamt hrate
  have hAle : calculateRiskAdjustment conditions ≤ 1 := calculateRiskAdjustment_le_one conditions
  have h0 : selectTiming (calculateRiskAdjustment conditions) maxWaitTime amount currentRate p
      (Timing.immediate, amount * currentRate) Timing.immediate =
      (Timing.immediate, amount * currentRate) := by
    have hle : weightedValue amount currentRate p Timing.immediate *
        calculateRiskAdjustment conditions ≤ amount * currentRate := by
      simpa [weightedValue] using mul_le_of_le_one_right hcv hAle
    unfold selectTiming
    rw [if_neg]
    rintro ⟨-, hlt⟩
    exact absurd hlt (not_lt.mpr hle)
  have hB : timingOrder.foldl
      (selectTiming (calculateRiskAdjustment conditions) maxWaitTime amount currentRate p)
      (Timing.immediate, amount * currentRate) =
      [Timing.wait_5min, Timing.wait_15min, Timing.wait_30min].foldl
        (selectTiming (calculateRiskAdjustment conditions) maxWaitTime amount currentRate p)
        (Timing.immediate, amount * currentRate) := by
    simp only [timingOrder, List.foldl_cons, h0]
  have hrec :
      (calculateOptimalTiming amount currentRate p conditions maxWaitTime).recommendedTiming =
      ([Timing.wait_5min, Timing.wait_15min, Timing.wait_30min].foldl
        (selectTiming (calculateRiskAdjustment conditions) maxWaitTime amount currentRate p)
        (Timing.immediate, amount * currentRate)).1 := by
    show (timingOrder.foldl
        (selectTiming (calculateRiskAdjustment conditions) maxWaitTime amount currentRate p)
        (Timing.immediate, amount * currentRate)).1 = _
    rw [hB]
  have hsav :
      (calculateOptimalTiming amount currentRate p conditions maxWaitTime).estimatedSavings =
      ([Timing.wait_5min, Timing.wait_15min, Timing.wait_30min].foldl
        (selectTiming (calculateRiskAdjustment conditions) maxWaitTime amount currentRate p)
        (Timing.immediate, amount * currentRate)).2 - amount * currentRate := by
    show (timingOrder.foldl
        (selectTiming (calculateRiskAdjustment conditions) maxWaitTime amount currentRate p)
        (Timing.immediate, amount * currentRate)).2 - amount * currentRate = _
    rw [hB]
  have hwaits : ∀ t ∈ [Timing.wait_5min, Timing.wait_15min, Timing.wait_30min],
      t ≠ Timing.immediate := by decide
  refine ⟨?_, ⟨?_, ?_⟩, ?_, ?_⟩
  · rw [hrec]
    exact selectTiming_foldl_wait (calculateRiskAdjustment conditions) maxWaitTime amount
      currentRate p [Timing.wait_5min, Timing.wait_15min, Timing.wait_30min]
      (Timing.immediate, amount * currentRate) (by simpa [waitMinutesOf] using hwait)
  · intro h
    rw [hrec] at h
    exact selectTiming_foldl_imm (calculateRiskAdjustment conditions) maxWaitTime amount
      currentRate p [Timing.wait_5min, Timing.wait_15min, Timing.wait_30min]
      (Timing.immediate, amount * currentRate) rfl hwaits h
  · intro h
    rw [hrec, selectTiming_foldl_keep (calculateRiskAdjustment conditions) maxWaitTime amount
      currentRate p [Timing.wait_5min, Timing.wait_15min, Timing.wait_30min]
      (Timing.immediate, amount * currentRate) h]
  · intro h
    rw [hsav, selectTiming_foldl_keep (calculateRiskAdjustment conditions) maxWaitTime amount
      currentRate p [Timing.wait_5min, Timing.wait_15min, Timing.wait_30min]
      (Timing.immediate, amount * currentRate) ?_]
    · ring
    · rw [hrec] at h
      exact selectTiming_foldl_imm (calculateRiskAdjustment conditions) maxWaitTime amount
        currentRate p [Timing.wait_5min, Timing.wait_15min, Timing.wait_30min]
        (Timing.immediate, amount * currentRate) rfl hwaits h
  · intro t ht htne
    rcases selectTiming_foldl_result (calculateRiskAdjustment conditions) maxWaitTime amount
        currentRate p [Timing.wait_5min, Timing.wait_15min, Timing.wait_30min]
        (Timing.immediate, amount * currentRate) with hres | ⟨u, hu, hres, hwu⟩
    · rw [hrec, hres] at ht
      exact absurd ht.symm htne
    · rw [hrec, hres] at ht
      have hut : u = t := ht
      subst hut
      rw [hsav, hres]

/-- Witness for C8 at a concrete optimizer input. -/
theorem calculateOptimalTiming_spec_witness :
    waitMinutesOf ((calculateOptimalTiming 1 100
        ⟨100, 101, 102, 103, 104, 105, 90, 80, 70, 60, 50, Trend.neutral, Volatility.low⟩
        ⟨Trend.neutral, 50, VolumeLevel.medium, 70, MarketRiskLevel.low⟩
        30).recommendedTiming) ≤ 30 :=
  (calculateOptimalTiming_spec 1 100
      ⟨100, 101, 102, 103, 104, 105, 90, 80, 70, 60, 50, Trend.neutral, Volatility.low⟩
      ⟨Trend.neutral, 50, VolumeLevel.medium, 70, MarketRiskLevel.low⟩
      30 (by norm_num) (by norm_num) (by norm_num)).1

/-- C1 (violation exhibited at a concrete input): `processPayment` performs
no idempotency check.  Starting from a fresh invoice, a first call settles
fully (one completed transaction, one payout-rail invocation); a second
call for the same invoice is not refused: its insert phase produces a state
holding a `processing` transaction alongside the existing `completed` one,
and the full second call runs the settlement path again, doubling the
transactions and the payout-rail invocations. -/
theorem processPayment_duplicate_settlement :
    ((processPayment sampleState "INV-1" samplePayment sampleEnv).toOption.map
      (fun st1 =>
        ((st1.transactions.filter (fun t =>
            decide (t.invoice_id = "INV-1") &&
              decide (t.status = TxStatus.processing ∨ t.status = TxStatus.completed))).length,
          (processPaymentInsert st1 "INV-1" samplePayment).toOption.map
            (fun r =>
              ((r.1.transactions.filter (fun t => decide (t.status = TxStatus.processing))).length,
                (r.1.transactions.filter (fun t => decide (t.status = TxStatus.completed))).length)),
          (processPayment st1 "INV-1" samplePayment sampleEnv).toOption.map
            (fun st2 =>
              (st2.payouts.length,
                (st2.transactions.filter (fun t => decide (t.invoice_id = "INV-1"))).length))))) =
      some (1, some (1, 1), some (2, 2)) := by
  decide

/-- C3 (violation exhibited at a concrete input): with request metadata
present and risk factors scoring 90 — above the block threshold — the
assessment says `blockTransaction`, the pre-screen throws the blocking
error, and yet `createInvoice` stores and returns the invoice (with status
`pending_review`), because the throw is swallowed by the enclosing
`catch`. -/
theorem createInvoice_blocked_still_created :
    (analyzeTransactionDecision blockedFactors).blockTransaction = true ∧
    fraudPreScreen blockedFactors =
      Except.error "Transaction blocked due to high fraud risk" ∧
    (createInvoice (fun _ => none) "INV-1" sampleInvoiceData blockedFactors sampleMerchant
        "2025-01-02T00:00:00Z").1 "INV-1" =
      some (createInvoice (fun _ => none) "INV-1" sampleInvoiceData blockedFactors sampleMerchant
        "2025-01-02T00:00:00Z").2.1 ∧
    (createInvoice (fun _ => none) "INV-1" sampleInvoiceData blockedFactors sampleMerchant
        "2025-01-02T00:00:00Z").2.1.status = InvoiceStatus.pending_review := by
  have hov : calculateOverallRisk blockedFactors = 90 := by
    norm_num [calculateOverallRisk, jsRound, blockedFactors]
  have hblock : (analyzeTransactionDecision blockedFactors).blockTransaction = true := by
    norm_num [analyzeTransactionDecision, hov]
  refine ⟨hblock, ?_, ?_, ?_⟩
  · simp [fraudPreScreen, hblock]
  · simp [createInvoice]
  · simp [createInvoice, sampleInvoiceData, riskAssessmentAfterCatch, fraudPreScreen,
      analyzeTransactionDecision, hblock, hov]

/-- C6 counterexample: when the optimizer recommends waiting, the
`estimatedSavings` are added to the converted amount before the service
fee, so the amount handed to the payout rail (53,795.625 KES here, i.e.
430365/8) differs from `a × r × (1 − f) × (1 − 0.025)` for
a = 0.01 BTC, r = 5,500,000 KES/BTC, f = 0.015, savings = 1000 KES. -/
theorem settlement_formula_counterexample :
    (processKESSettlement sampleState 0 sampleInvoice samplePayment
        { sampleEnv with
          recommendedTiming := Timing.wait_5min
          estimatedSavings := 1000 }).payouts =
      [(sampleMerchant.mpesa_number, 430365 / 8)] ∧
    (430365 : ℚ) / 8 ≠
      samplePayment.cryptoAmount * sampleEnv.exchangeRate *
        (1 - sampleEnv.conversionFeeRate) * (1 - 25 / 1000) := by
  constructor
  · simp only [processKESSettlement, sampleState, sampleInvoice, sampleMerchant, samplePayment,
      sampleEnv, conversionKesAmount, executeCryptoConversionKES, calculateKESAmount,
      serviceFeeRate, List.nil_append]
    have hne : ¬(Timing.wait_5min = Timing.immediate) := by decide
    norm_num [if_neg hne]
  · norm_num [samplePayment, sampleEnv]

/-- C6 amended: the payout amount equals
`a × r × (1 − f) × (1 − 0.025)` on the immediate-timing path; when the
optimizer recommends waiting, the optimizer's `estimatedSavings` are added
to the net converted amount before the 2.5% service fee, so the payout is
`(a × r × (1 − f) + savings) × (1 − 0.025)`.  The concrete scenario holds
on the immediate path: gross 55,000 KES, 54,175 KES after the provider fee,
52,820.625 KES paid out; and `processKESSettlement` hands exactly this
payout amount to the rail. -/
theorem settlement_payout_amended (a r f s : ℚ) (timing : Timing) :
    (timing = Timing.immediate →
      kesPayoutAmount a r f s timing = a * r * (1 - f) * (1 - 25 / 1000)) ∧
    (timing ≠ Timing.immediate →
      kesPayoutAmount a r f s timing = (a * r * (1 - f) + s) * (1 - 25 / 1000)) ∧
    kesPayoutAmount (1 / 100) 5500000 (15 / 1000) 0 Timing.immediate = 52820625 / 1000 ∧
    (calculateKESAmount (1 / 100) 5500000 (15 / 1000)).kesAmount = 55000 ∧
    (calculateKESAmount (1 / 100) 5500000 (15 / 1000)).netAmount = 54175 ∧
    (∀ (st : OrchestratorState) (txId : Nat) (inv : Invoice) (pd : PaymentData)
        (env : SettlementEnv),
      (processKESSettlement st txId inv pd env).payouts =
        st.payouts ++ [(inv.merchants.mpesa_number,
          kesPayoutAmount pd.cryptoAmount env.exchangeRate env.conversionFeeRate
            env.estimatedSavings env.recommendedTiming)]) := by
  refine ⟨?_, ?_,
    by norm_num [kesPayoutAmount, conversionKesAmount, executeCryptoConversionKES,
      calculateKESAmount, serviceFeeRate],
    by norm_num [calculateKESAmount],
    by norm_num [calculateKESAmount],
    fun st txId inv pd env => rfl⟩
  · intro h
    subst h
    simp only [kesPayoutAmount, conversionKesAmount, executeCryptoConversionKES,
      calculateKESAmount, serviceFeeRate, eq_self_iff_true, if_true]
    ring
  · intro h
    simp only [kesPayoutAmount, conversionKesAmount, executeCryptoConversionKES,
      calculateKESAmount, serviceFeeRate, if_neg h]
    ring

/-- Witness for the amended C6 theorem at the concrete scenario. -/
theorem settlement_payout_amended_witness :
    kesPayoutAmount (1 / 100) 5500000 (15 / 1000) 0 Timing.immediate =
      (1 / 100) * 5500000 * (1 - 15 / 1000) * (1 - 25 / 1000) :=
  (settlement_payout_amended (1 / 100) 5500000 (15 / 1000) 0 Timing.immediate).1 rfl

end Novapay
